import Mathlib

/-
Verification development for the FemtoWorld producer task
(PWGCF/FemtoWorld/TableProducer/femtoWorldProducerTask.cxx).

The task consumes one collision at a time together with its tracks and V0
candidates and emits derived tables: one collision row per retained event
(outputCollision) and particle rows (outputParts) for accepted tracks,
V0 triples (positive child, negative child, V0 parent) and Phi-pair triples
(first leg, second leg, Phi parent).

Shallow embedding conventions:
- floating point values are modelled by exact rationals (ℚ);
- the external collaborators that live outside this translation unit
  (FemtoWorldCollisionSelection, FemtoWorldTrackSelection,
  FemtoWorldV0Selection, FemtoWorldPhiSelection, the CCDB service and the
  TLorentzVector kinematics) are modelled as oracle functions supplied in an
  Env record: the producer only branches on their results, it never looks
  inside them;
- table writes (outputCollision(...), outputParts(...)) append a row to a
  list; lastIndex() is length - 1;
- LOGF(fatal, ...) aborts processing, modelled by Option.none.
-/

namespace FemtoWorld

/-- GRP conditions object; only its nominal L3 field (in kG) is read by the
producer (grpo->getNominalL3Field() in getMagneticFieldTesla). -/
structure GRPObject where
  nominalL3Field : ℚ
deriving DecidableEq, Inhabited

/-- Runtime configurables of femtoWorldProducerTask that the processProd logic
branches on, with the defaults declared in the source.  The cfg...Part1/Part2
values are the per-leg Phi gates; in the source they are Configurables
re-declared inside the ConfStorePhi branch of processProd (flagged by the spec
as a latent defect), with the defaults recorded here. -/
structure Config where
  ConfIsTrigger : Bool                -- default false, "Store all collisions"
  ConfIsRun3 : Bool                   -- default false
  ConfStoreV0 : Bool                  -- default true
  ConfStorePhi : Bool                 -- default true
  ConfNsigmaTPCTOFKaon : Bool         -- default true
  ConfNsigmaCombinedKaon : ℚ          -- default 5.0
  ConfNsigmaTPCKaon : ℚ               -- default 5.0
  ConfInvMassLowLimitPhi : ℚ          -- default 1.005
  ConfInvMassUpLimitPhi : ℚ           -- default 1.035
  cfgPtLowPart1 : ℚ                   -- default 0.14
  cfgPtHighPart1 : ℚ                  -- default 1.5
  cfgPLowPart1 : ℚ                    -- default 0.14
  cfgPHighPart1 : ℚ                   -- default 1.5
  cfgEtaLowPart1 : ℚ                  -- default -0.8
  cfgEtaHighPart1 : ℚ                 -- default 0.8
  cfgPtLowPart2 : ℚ                   -- default 0.14
  cfgPtHighPart2 : ℚ                  -- default 1.5
  cfgPLowPart2 : ℚ                    -- default 0.14
  cfgPHighPart2 : ℚ                   -- default 1.5
  cfgEtaLowPart2 : ℚ                  -- default -0.8
  cfgEtaHighPart2 : ℚ                 -- default 0.8
deriving DecidableEq, Inhabited

/-- An input track with the accessors processProd reads.  run2Tracklet models
"trackType() == o2::aod::track::TrackTypeEnum::Run2Tracklet". -/
structure Track where
  globalIndex : ℤ
  run2Tracklet : Bool
  pt : ℚ
  eta : ℚ
  phi : ℚ
  p : ℚ
  sign : ℤ
  dcaXY : ℚ
  tpcNSigmaKa : ℚ
  tofNSigmaKa : ℚ
deriving DecidableEq, Inhabited

/-- aod::femtoworldparticle::ParticleType. -/
inductive ParticleType where
  | kTrack
  | kV0Child
  | kV0
  | kPhiChild
  | kPhi
deriving DecidableEq, Inhabited

/-- One derived particle row, the leading arguments of an outputParts(...)
call: collision link, kinematics, mass slot, particle type, the two bit-packed
containers, tempFitVar (DCAxy for tracks, cos PA for the V0 parent), the pair
of child row indices, the two Lambda-hypothesis masses and the charge sign.
The remaining ~26 columns of the call are per-track detector observables
copied verbatim from the input track; no claim mentions them and they are
omitted from the row model. -/
structure ParticleRow where
  femtoCollisionId : ℤ
  pt : ℚ
  eta : ℚ
  phi : ℚ
  p : ℚ
  mass : ℚ
  partType : ParticleType
  cut : ℕ
  pid : ℕ
  tempFitVar : ℚ
  childIDs : ℤ × ℤ
  mLambda : ℚ
  mAntiLambda : ℚ
  sign : ℤ
deriving DecidableEq, Inhabited

/-- One row of the derived collision table: outputCollision(zvtx, mult,
sphericity, magnetic field). -/
structure CollisionRow where
  posZ : ℚ
  mult : ℚ
  spher : ℚ
  magField : ℚ
deriving DecidableEq, Inhabited

/-- The cut container returned by FemtoWorldV0Selection::getCutContainer (and
by FemtoWorldPhiSelection::getCutContainer, which is read through the same
V0ContainerPosition indices in the source): bit-packed selection and PID
bitmaps for the candidate and its two daughters. -/
structure V0CutContainer where
  v0 : ℕ       -- V0ContainerPosition::kV0
  posCuts : ℕ  -- V0ContainerPosition::kPosCuts
  posPID : ℕ   -- V0ContainerPosition::kPosPID
  negCuts : ℕ  -- V0ContainerPosition::kNegCuts
  negPID : ℕ   -- V0ContainerPosition::kNegPID
deriving DecidableEq, Inhabited

/-- An input V0 candidate with the accessors processProd reads.  posTrack and
negTrack are the daughter tracks resolved by posTrack_as / negTrack_as;
posTrackId and negTrackId are the stored daughter indices (v0.posTrackId(),
v0.negTrackId()); positivept etc. are the daughter kinematics recorded on the
V0 candidate; v0cosPA is the value of v0.v0cosPA(col.posX(), col.posY(),
col.posZ()) at this event's vertex. -/
structure V0Cand where
  posTrackId : ℤ
  negTrackId : ℤ
  posTrack : Track
  negTrack : Track
  positivept : ℚ
  positiveeta : ℚ
  positivephi : ℚ
  negativept : ℚ
  negativeeta : ℚ
  negativephi : ℚ
  pt : ℚ
  eta : ℚ
  phi : ℚ
  mLambda : ℚ
  mAntiLambda : ℚ
  v0cosPA : ℚ
deriving DecidableEq, Inhabited

/-- An input collision with the accessors processProd reads (the bc join is
folded into runNumber/timestamp). -/
structure Collision where
  runNumber : ℤ
  timestamp : ℕ
  posZ : ℚ
  multFV0M : ℚ
  multFT0M : ℚ
deriving DecidableEq, Inhabited

/-- Result of the TLorentzVector sum of the two Phi legs: sumVec.Eta(),
.Phi(), .Pt(), .P(), .M(). -/
structure LorentzSum where
  eta : ℚ
  phi : ℚ
  pt : ℚ
  p : ℚ
  m : ℚ
deriving DecidableEq, Inhabited

/-- External collaborators of processProd, modelled as oracles for the current
event: the event selector verdict and sphericity (FemtoWorldCollisionSelection),
the minimal track filter (FemtoWorldTrackSelection::isSelectedMinimal), the V0
minimal filter and cut container (FemtoWorldV0Selection), the Phi cut container
(FemtoWorldPhiSelection), the two PDG masses looked up from TDatabasePDG, the
TLorentzVector pair kinematics, and the CCDB fetch
(ccdb->getForTimeStamp<GRPObject>). -/
structure Env where
  isSelected : Bool
  sphericity : ℚ
  isSelectedMinimalTrack : Track → Bool
  v0IsSelectedMinimal : V0Cand → Bool
  v0CutContainer : V0Cand → V0CutContainer
  phiCutContainer : Track → Track → V0CutContainer
  mMassOne : ℚ
  mMassTwo : ℚ
  lorentzSum : Track → Track → LorentzSum
  fetchGRP : ℕ → Option GRPObject

/-- Mutable state of the producer across events: the two output tables, the
run-number / magnetic-field cache (mRunNumber, mMagField) and the static GRP
object cached inside getMagneticFieldTesla. -/
structure ProducerState where
  outputCollision : List CollisionRow
  outputParts : List ParticleRow
  mRunNumber : ℤ
  mMagField : ℚ
  grpo : Option GRPObject
deriving DecidableEq, Inhabited

/-- Decides TMath::Hypot(x, y) < c exactly over ℚ: since Hypot(x, y) =
sqrt (x² + y²) is nonnegative, the comparison holds iff 0 < c and
x² + y² < c² (proved against Real.sqrt in hypotLt_iff below). -/
def hypotLt (x y c : ℚ) : Bool :=
  decide (0 < c) && decide (x ^ 2 + y ^ 2 < c ^ 2)

/-- bool IsKaonNSigma(float mom, float nsigmaTPCK, float nsigmaTOFK):
if ConfNsigmaTPCTOFKaon, then |nsigmaTPCK| < ConfNsigmaTPCKaon decides momenta
below 0.4 and Hypot(nsigmaTOFK, nsigmaTPCK) < ConfNsigmaCombinedKaon decides
momenta above 0.4; every other path returns false. -/
def IsKaonNSigma (cfg : Config) (mom nsigmaTPCK nsigmaTOFK : ℚ) : Bool :=
  if cfg.ConfNsigmaTPCTOFKaon then
    if mom < 0.4 then
      decide (|nsigmaTPCK| < cfg.ConfNsigmaTPCKaon)
    else if mom > 0.4 then
      hypotLt nsigmaTOFK nsigmaTPCK cfg.ConfNsigmaCombinedKaon
    else
      false
  else
    false

/-- float getMagneticFieldTesla(uint64_t timestamp): the GRP object is held in
a function-static pointer, so the CCDB is consulted only while that pointer is
still null; a null fetch result is fatal (none).  On success the cached object
and 0.1 * getNominalL3Field() are returned. -/
def getMagneticFieldTesla (fetch : ℕ → Option GRPObject) (grpo : Option GRPObject)
    (timestamp : ℕ) : Option (GRPObject × ℚ) :=
  match grpo with
  | some g => some (g, (0.1 : ℚ) * g.nominalL3Field)
  | none =>
    match fetch timestamp with
    | none => none
    | some g => some (g, (0.1 : ℚ) * g.nominalL3Field)

/-- Head of processProd: if the run number changed, mMagField is recomputed
through getMagneticFieldTesla (which may hit the static GRP cache) and
mRunNumber is updated; a fatal lookup aborts (none). -/
def updateMagField (env : Env) (st : ProducerState) (col : Collision) :
    Option ProducerState :=
  if st.mRunNumber ≠ col.runNumber then
    match getMagneticFieldTesla env.fetchGRP st.grpo col.timestamp with
    | none => none
    | some gb =>
      some { st with grpo := some gb.1, mMagField := gb.2, mRunNumber := col.runNumber }
  else
    some st

/-- Scan of getRowDaughters, carrying the running index. -/
def findRowAux (daughID : ℤ) : List ℤ → ℕ → ℤ
  | [], _ => -1
  | x :: xs, i => if x = daughID then (i : ℤ) else findRowAux daughID xs (i + 1)

/-- int getRowDaughters(int daughID, T const& vecID): linear scan returning the
first position whose entry equals daughID (break on first hit), -1 when the id
is absent. -/
def getRowDaughters (daughID : ℤ) (vecID : List ℤ) : ℤ :=
  findRowAux daughID vecID 0

/-- Row emitted in the rejected-event ConfIsTrigger branch:
outputCollision(col.posZ(), col.multFV0M(), sphericity, mMagField). -/
def rejectedCollisionRow (env : Env) (st : ProducerState) (col : Collision) : CollisionRow :=
  { posZ := col.posZ, mult := col.multFV0M, spher := env.sphericity, magField := st.mMagField }

/-- Row emitted for an accepted event: multFT0M when ConfIsRun3, multFV0M
otherwise. -/
def acceptedCollisionRow (cfg : Config) (env : Env) (st : ProducerState) (col : Collision) :
    CollisionRow :=
  if cfg.ConfIsRun3 then
    { posZ := col.posZ, mult := col.multFT0M, spher := env.sphericity, magField := st.mMagField }
  else
    { posZ := col.posZ, mult := col.multFV0M, spher := env.sphericity, magField := st.mMagField }

/-- Particle row emitted for a primary track passing the minimal filter: both
cut containers are the literal 0 (the cutContainer computation is commented out
in the source), childIDs is still {0, 0}, tempFitVar is dcaXY. -/
def trackRow (colId : ℤ) (t : Track) : ParticleRow :=
  { femtoCollisionId := colId, pt := t.pt, eta := t.eta, phi := t.phi, p := t.p,
    mass := 1, partType := .kTrack, cut := 0, pid := 0, tempFitVar := t.dcaXY,
    childIDs := (0, 0), mLambda := 0, mAntiLambda := 0, sign := t.sign }

/-- Positive V0 child row: daughter kinematics from the V0 candidate, kPosCuts
and kPosPID containers, childIDs = {rowInPrimaryTrackTablePos, 0}. -/
def v0PosChildRow (colId : ℤ) (rowPos : ℤ) (cc : V0CutContainer) (v0 : V0Cand) : ParticleRow :=
  { femtoCollisionId := colId, pt := v0.positivept, eta := v0.positiveeta, phi := v0.positivephi,
    p := 0, mass := 0, partType := .kV0Child, cut := cc.posCuts, pid := cc.posPID,
    tempFitVar := 0, childIDs := (rowPos, 0), mLambda := 0, mAntiLambda := 0,
    sign := v0.posTrack.sign }

/-- Negative V0 child row: childIDs = {0, rowInPrimaryTrackTableNeg}. -/
def v0NegChildRow (colId : ℤ) (rowNeg : ℤ) (cc : V0CutContainer) (v0 : V0Cand) : ParticleRow :=
  { femtoCollisionId := colId, pt := v0.negativept, eta := v0.negativeeta, phi := v0.negativephi,
    p := 0, mass := 0, partType := .kV0Child, cut := cc.negCuts, pid := cc.negPID,
    tempFitVar := 0, childIDs := (0, rowNeg), mLambda := 0, mAntiLambda := 0,
    sign := v0.negTrack.sign }

/-- V0 parent row: kV0 container, cos PA in the tempFitVar slot, childIDs =
{rowOfPosTrack, rowOfNegTrack}, Lambda-hypothesis masses, and the positive
daughter's sign (the source reads postrack.sign() here). -/
def v0ParentRow (colId : ℤ) (rowPos rowNeg : ℤ) (cc : V0CutContainer) (v0 : V0Cand) :
    ParticleRow :=
  { femtoCollisionId := colId, pt := v0.pt, eta := v0.eta, phi := v0.phi,
    p := 0, mass := 0, partType := .kV0, cut := cc.v0, pid := 0,
    tempFitVar := v0.v0cosPA, childIDs := (rowPos, rowNeg),
    mLambda := v0.mLambda, mAntiLambda := v0.mAntiLambda, sign := v0.posTrack.sign }

/-- The three rows written for an accepted V0, in source emission order:
positive child, negative child, parent.  base is the particle-table length
before the first write, so rowOfPosTrack = outputParts.lastIndex() after the
first write = base and rowOfNegTrack = base + 1; the daughter links are
resolved through getRowDaughters on tmpIDtrack. -/
def v0Triple (colId : ℤ) (tmpIDtrack : List ℤ) (base : ℕ) (cc : V0CutContainer)
    (v0 : V0Cand) : List ParticleRow :=
  [v0PosChildRow colId (getRowDaughters v0.posTrackId tmpIDtrack) cc v0,
   v0NegChildRow colId (getRowDaughters v0.negTrackId tmpIDtrack) cc v0,
   v0ParentRow colId (base : ℤ) ((base : ℤ) + 1) cc v0]

/-- Rows contributed by one V0 of the fullV0s loop: nothing unless
isSelectedMinimal passes and all three of kV0, kPosCuts and kNegCuts container
values are strictly positive, in which case the triple is written. -/
def v0CandRows (env : Env) (colId : ℤ) (tmpIDtrack : List ℤ) (base : ℕ) (v0 : V0Cand) :
    List ParticleRow :=
  if env.v0IsSelectedMinimal v0 then
    let cc := env.v0CutContainer v0
    if 0 < cc.v0 ∧ 0 < cc.posCuts ∧ 0 < cc.negCuts then
      v0Triple colId tmpIDtrack base cc v0
    else
      []
  else
    []

/-- The ConfStoreV0 loop over fullV0s: sequential appends to the particle
table. -/
def v0Loop (env : Env) (colId : ℤ) (tmpIDtrack : List ℤ) (parts : List ParticleRow)
    (fullV0s : List V0Cand) : List ParticleRow :=
  fullV0s.foldl (fun ps v0 => ps ++ v0CandRows env colId tmpIDtrack ps.length v0) parts

/-- The per-pair gate chain of the Phi loop, in source order: skip Run2
tracklets, skip equal global indices, pT / p / eta windows for each leg, then
the kaon PID gate for each leg.  True means the pair survives every continue. -/
def phiPairPass (cfg : Config) (p1 p2 : Track) : Bool :=
  !(p1.run2Tracklet || p2.run2Tracklet) &&
  !(p1.globalIndex == p2.globalIndex) &&
  !(decide (p1.pt < cfg.cfgPtLowPart1) || decide (p1.pt > cfg.cfgPtHighPart1)) &&
  !(decide (p1.p < cfg.cfgPLowPart1) || decide (p1.p > cfg.cfgPHighPart1)) &&
  !(decide (p1.eta < cfg.cfgEtaLowPart1) || decide (p1.eta > cfg.cfgEtaHighPart1)) &&
  !(decide (p2.pt < cfg.cfgPtLowPart2) || decide (p2.pt > cfg.cfgPtHighPart2)) &&
  !(decide (p2.p < cfg.cfgPLowPart2) || decide (p2.p > cfg.cfgPHighPart2)) &&
  !(decide (p2.eta < cfg.cfgEtaLowPart2) || decide (p2.eta > cfg.cfgEtaHighPart2)) &&
  IsKaonNSigma cfg p1.p p1.tpcNSigmaKa p1.tofNSigmaKa &&
  IsKaonNSigma cfg p2.p p2.tpcNSigmaKa p2.tofNSigmaKa

/-- First Phi leg row: the leg's own kinematics, mMassOne in the mass slot,
kPosCuts / kPosPID of the Phi cut container, childIDs = {row of leg 1 in the
primary track table, 0}. -/
def phiPosChildRow (env : Env) (colId : ℤ) (rowPos : ℤ) (cc : V0CutContainer) (p1 : Track) :
    ParticleRow :=
  { femtoCollisionId := colId, pt := p1.pt, eta := p1.eta, phi := p1.phi, p := p1.p,
    mass := env.mMassOne, partType := .kPhiChild, cut := cc.posCuts, pid := cc.posPID,
    tempFitVar := 0, childIDs := (rowPos, 0), mLambda := 0, mAntiLambda := 0, sign := p1.sign }

/-- Second Phi leg row: mMassTwo, kNegCuts / kNegPID, childIDs = {0, row of
leg 2}. -/
def phiNegChildRow (env : Env) (colId : ℤ) (rowNeg : ℤ) (cc : V0CutContainer) (p2 : Track) :
    ParticleRow :=
  { femtoCollisionId := colId, pt := p2.pt, eta := p2.eta, phi := p2.phi, p := p2.p,
    mass := env.mMassTwo, partType := .kPhiChild, cut := cc.negCuts, pid := cc.negPID,
    tempFitVar := 0, childIDs := (0, rowNeg), mLambda := 0, mAntiLambda := 0, sign := p2.sign }

/-- Phi parent row: summed TLorentzVector kinematics and mass, kV0 container
slot, zero tempFitVar and Lambda masses, childIDs = {rowOfPosTrack,
rowOfNegTrack}, first leg's sign. -/
def phiParentRow (colId : ℤ) (rowPos rowNeg : ℤ) (cc : V0CutContainer) (sumVec : LorentzSum)
    (p1 : Track) : ParticleRow :=
  { femtoCollisionId := colId, pt := sumVec.pt, eta := sumVec.eta, phi := sumVec.phi,
    p := sumVec.p, mass := sumVec.m, partType := .kPhi, cut := cc.v0, pid := 0,
    tempFitVar := 0, childIDs := (rowPos, rowNeg), mLambda := 0, mAntiLambda := 0,
    sign := p1.sign }

/-- Rows contributed by one pair of the Phi loop: nothing unless the gate chain
passes and the summed invariant mass lies inside [ConfInvMassLowLimitPhi,
ConfInvMassUpLimitPhi]; after that the storage test in the source is the
constant true ("temporary true value"), so the triple is always written, with
the Phi cut container copied into the rows but never tested. -/
def phiPairRows (cfg : Config) (env : Env) (colId : ℤ) (tmpIDtrack : List ℤ) (base : ℕ)
    (p1 p2 : Track) : List ParticleRow :=
  if phiPairPass cfg p1 p2 then
    let sumVec := env.lorentzSum p1 p2
    if decide (sumVec.m < cfg.ConfInvMassLowLimitPhi) ||
        decide (sumVec.m > cfg.ConfInvMassUpLimitPhi) then
      []
    else
      let cc := env.phiCutContainer p1 p2
      [phiPosChildRow env colId (getRowDaughters p1.globalIndex tmpIDtrack) cc p1,
       phiNegChildRow env colId (getRowDaughters p2.globalIndex tmpIDtrack) cc p2,
       phiParentRow colId (base : ℤ) ((base : ℤ) + 1) cc (env.lorentzSum p1 p2) p1]
  else
    []

/-- soa::CombinationsStrictlyUpperIndexPolicy(tracks, tracks): all pairs
(tracks[i], tracks[j]) with i < j, iterated in lexicographically increasing
(i, j) order. -/
def strictlyUpperPairs {α : Type} : List α → List (α × α)
  | [] => []
  | x :: xs => xs.map (fun y => (x, y)) ++ strictlyUpperPairs xs

/-- The ConfStorePhi loop over all strictly-upper track pairs. -/
def phiLoop (cfg : Config) (env : Env) (colId : ℤ) (tmpIDtrack : List ℤ)
    (parts : List ParticleRow) (tracks : List Track) : List ParticleRow :=
  (strictlyUpperPairs tracks).foldl
    (fun ps q => ps ++ phiPairRows cfg env colId tmpIDtrack ps.length q.1 q.2) parts

/-- The primary-track loop: tracks failing isSelectedMinimal are skipped; each
surviving track appends its row to the particle table and its globalIndex to
tmpIDtrack. -/
def trackLoop (env : Env) (colId : ℤ) (acc : List ParticleRow × List ℤ)
    (tracks : List Track) : List ParticleRow × List ℤ :=
  tracks.foldl
    (fun a t =>
      if env.isSelectedMinimalTrack t then
        (a.1 ++ [trackRow colId t], a.2 ++ [t.globalIndex])
      else
        a)
    acc

/-- void processProd(col, bcs, tracks, fullV0s): per-run magnetic field update,
event selection (with the ConfIsTrigger store-all branch), accepted-event
collision row, primary-track loop, ConfStoreV0 loop, ConfStorePhi loop.
none models the fatal CCDB abort. -/
def processProd (cfg : Config) (env : Env) (st : ProducerState) (col : Collision)
    (tracks : List Track) (fullV0s : List V0Cand) : Option ProducerState :=
  match updateMagField env st col with
  | none => none
  | some st1 =>
    if !env.isSelected then
      if cfg.ConfIsTrigger then
        some { st1 with
          outputCollision := st1.outputCollision ++ [rejectedCollisionRow env st1 col] }
      else
        some st1
    else
      let st2 := { st1 with
        outputCollision := st1.outputCollision ++ [acceptedCollisionRow cfg env st1 col] }
      let colId : ℤ := (st2.outputCollision.length : ℤ) - 1
      let pr := trackLoop env colId (st2.outputParts, []) tracks
      let parts2 := if cfg.ConfStoreV0 then v0Loop env colId pr.2 pr.1 fullV0s else pr.1
      let parts3 := if cfg.ConfStorePhi then phiLoop cfg env colId pr.2 parts2 tracks else parts2
      some { st2 with outputParts := parts3 }

/-- Modelled from the spec's ordering guarantee: the V0 rows of one event as a
flat list, candidate by candidate in input order, each accepted candidate
contributing its triple at the running base offset. -/
def v0EmitSpec (env : Env) (colId : ℤ) (tmpIDtrack : List ℤ) (base : ℕ) :
    List V0Cand → List ParticleRow
  | [] => []
  | v0 :: rest =>
    v0CandRows env colId tmpIDtrack base v0 ++
      v0EmitSpec env colId tmpIDtrack
        (base + (v0CandRows env colId tmpIDtrack base v0).length) rest

/-- Modelled from the spec's ordering guarantee: the Phi rows of one event as a
flat list over an explicit pair list in iteration order. -/
def phiEmitSpec (cfg : Config) (env : Env) (colId : ℤ) (tmpIDtrack : List ℤ) (base : ℕ) :
    List (Track × Track) → List ParticleRow
  | [] => []
  | q :: rest =>
    phiPairRows cfg env colId tmpIDtrack base q.1 q.2 ++
      phiEmitSpec cfg env colId tmpIDtrack
        (base + (phiPairRows cfg env colId tmpIDtrack base q.1 q.2).length) rest

/-- Modelled from the spec's ordering guarantee (§4.7/§5): all particle rows of
one accepted event in the required deterministic order — accepted tracks in
input iteration order, then V0 triples in input V0 order, then Phi-pair triples
in strictly-increasing pair-index order — with base0 the particle-table length
at event start. -/
def eventPartsSpec (cfg : Config) (env : Env) (colId : ℤ) (base0 : ℕ)
    (tracks : List Track) (fullV0s : List V0Cand) : List ParticleRow :=
  let sel := tracks.filter env.isSelectedMinimalTrack
  let tRows := sel.map (trackRow colId)
  let tmp := sel.map Track.globalIndex
  let vRows := if cfg.ConfStoreV0 then
      v0EmitSpec env colId tmp (base0 + tRows.length) fullV0s else []
  let pRows := if cfg.ConfStorePhi then
      phiEmitSpec cfg env colId tmp (base0 + tRows.length + vRows.length)
        (strictlyUpperPairs tracks) else []
  tRows ++ vRows ++ pRows

/-- Config with the defaults declared in the source. -/
def defaultConfig : Config :=
  { ConfIsTrigger := false, ConfIsRun3 := false, ConfStoreV0 := true, ConfStorePhi := true,
    ConfNsigmaTPCTOFKaon := true, ConfNsigmaCombinedKaon := 5, ConfNsigmaTPCKaon := 5,
    ConfInvMassLowLimitPhi := 1.005, ConfInvMassUpLimitPhi := 1.035,
    cfgPtLowPart1 := 0.14, cfgPtHighPart1 := 1.5, cfgPLowPart1 := 0.14, cfgPHighPart1 := 1.5,
    cfgEtaLowPart1 := -0.8, cfgEtaHighPart1 := 0.8,
    cfgPtLowPart2 := 0.14, cfgPtHighPart2 := 1.5, cfgPLowPart2 := 0.14, cfgPHighPart2 := 1.5,
    cfgEtaLowPart2 := -0.8, cfgEtaHighPart2 := 0.8 }

/-- Oracle environment with constant collaborator verdicts, used for concrete
evaluations: everything selected, unit cut containers, kaon PDG mass, a fixed
pair mass of 1.02 inside the default Phi window, and a CCDB holding a 30 kG
GRP object. -/
def constEnv : Env :=
  { isSelected := true, sphericity := 0,
    isSelectedMinimalTrack := fun _ => true,
    v0IsSelectedMinimal := fun _ => true,
    v0CutContainer := fun _ => ⟨1, 1, 1, 1, 1⟩,
    phiCutContainer := fun _ _ => ⟨1, 1, 1, 1, 1⟩,
    mMassOne := 0.493677, mMassTwo := 0.493677,
    lorentzSum := fun _ _ => ⟨0, 0, 1, 1, 1.02⟩,
    fetchGRP := fun _ => some ⟨30⟩ }

/-- A track passing every default Phi-leg gate (p = 1 > 0.4 so the combined
TPC+TOF branch of the kaon PID applies, with both sigmas 0). -/
def sampleTrack : Track :=
  { globalIndex := 1, run2Tracklet := false, pt := 1, eta := 0, phi := 0, p := 1,
    sign := 1, dcaXY := 0, tpcNSigmaKa := 0, tofNSigmaKa := 0 }

/-- Second leg, distinct global index. -/
def sampleTrack2 : Track :=
  { sampleTrack with globalIndex := 2, sign := -1 }

/-- Third track for pair-enumeration witnesses. -/
def sampleTrack3 : Track :=
  { sampleTrack with globalIndex := 3 }

/-- A V0 candidate whose recorded daughter kinematics agree with its daughter
tracks. -/
def sampleV0 : V0Cand :=
  { posTrackId := 1, negTrackId := 2, posTrack := sampleTrack, negTrack := sampleTrack2,
    positivept := 1, positiveeta := 0, positivephi := 0,
    negativept := 1, negativeeta := 0, negativephi := 0,
    pt := 2, eta := 0, phi := 0, mLambda := 1.115, mAntiLambda := 1.115, v0cosPA := 1 }

/-- A collision whose run number matches the cached one below, so the
magnetic-field update is a no-op. -/
def sampleCol : Collision :=
  { runNumber := 5, timestamp := 100, posZ := 1, multFV0M := 10, multFT0M := 20 }

/-- Producer state with empty tables and run 5 already cached. -/
def stEmpty : ProducerState :=
  { outputCollision := [], outputParts := [], mRunNumber := 5, mMagField := 3,
    grpo := some ⟨30⟩ }

/-- Environment for the C1 counterexample: the Phi cut container is
identically zero and the minimal track filter rejects everything, so the only
emitted particle rows are the Phi triple. -/
def envZeroBits : Env :=
  { constEnv with
    phiCutContainer := fun _ _ => ⟨0, 0, 0, 0, 0⟩,
    isSelectedMinimalTrack := fun _ => false }

/-- Config for the C1 counterexample: V0 storage off, Phi storage on. -/
def cfgPhiOnly : Config :=
  { defaultConfig with ConfStoreV0 := false }

/-- CCDB contents for the magnetic-field claim: a 30 kG GRP at timestamp 10
(run 1) and a 20 kG GRP at timestamp 20 (run 2). -/
def fetchTwoRuns : ℕ → Option GRPObject :=
  fun ts => if ts = 10 then some ⟨30⟩ else if ts = 20 then some ⟨20⟩ else none

/-- Environment for the magnetic-field claim: rejected events (the field update
happens before event selection), CCDB as above. -/
def envTwoRuns : Env :=
  { constEnv with isSelected := false, fetchGRP := fetchTwoRuns }

/-- First event: run 1 at timestamp 10. -/
def colRun1 : Collision :=
  { runNumber := 1, timestamp := 10, posZ := 0, multFV0M := 0, multFT0M := 0 }

/-- Second event: run 2 at timestamp 20. -/
def colRun2 : Collision :=
  { runNumber := 2, timestamp := 20, posZ := 0, multFV0M := 0, multFT0M := 0 }

/-- Fresh producer state: nothing cached yet. -/
def stFresh : ProducerState :=
  { outputCollision := [], outputParts := [], mRunNumber := 0, mMagField := 0, grpo := none }

/-- Config in "store all collisions" (trigger) mode. -/
def cfgTrigger : Config :=
  { defaultConfig with ConfIsTrigger := true }

/-- Config with both composite productions disabled: only track rows. -/
def cfgTrackOnly : Config :=
  { defaultConfig with ConfStoreV0 := false, ConfStorePhi := false }

/-- Producer state after processing sampleCol with one accepted track under
cfgTrackOnly. -/
def stTrackOnlyOut : ProducerState :=
  { outputCollision := [{ posZ := 1, mult := 10, spher := 0, magField := 3 }],
    outputParts := [trackRow 0 sampleTrack],
    mRunNumber := 5, mMagField := 3, grpo := some ⟨30⟩ }

/-- hypotLt decides the source's TMath::Hypot(x, y) < c comparison exactly. -/
theorem hypotLt_iff (x y c : ℚ) :
    hypotLt x y c = true ↔ Real.sqrt ((x : ℝ) ^ 2 + (y : ℝ) ^ 2) < (c : ℝ) := by
  unfold hypotLt
  simp only [Bool.and_eq_true, decide_eq_true_eq]
  constructor
  · rintro ⟨hc, hlt⟩
    have hcR : (0 : ℝ) < (c : ℝ) := by exact_mod_cast hc
    rw [Real.sqrt_lt' hcR]
    exact_mod_cast hlt
  · intro h
    have hcR : (0 : ℝ) < (c : ℝ) := lt_of_le_of_lt (Real.sqrt_nonneg _) h
    refine ⟨by exact_mod_cast hcR, ?_⟩
    have := (Real.sqrt_lt' hcR).mp h
    exact_mod_cast this

/-- The scan returns -1 when the id is absent, whatever the running index. -/
theorem findRowAux_of_not_mem (daughID : ℤ) :
    ∀ (l : List ℤ) (k : ℕ), daughID ∉ l → findRowAux daughID l k = -1
  | [], _, _ => rfl
  | x :: xs, k, h => by
    have hx : ¬ x = daughID := by
      intro hx
      exact h (by simp [hx])
    rw [findRowAux, if_neg hx]
    exact findRowAux_of_not_mem daughID xs (k + 1) fun hm => h (List.mem_cons_of_mem _ hm)

/-- On a duplicate-free list the scan returns the exact position of the id,
shifted by the running index. -/
theorem findRowAux_get? (daughID : ℤ) :
    ∀ (l : List ℤ) (k i : ℕ), l.Nodup → l.get? i = some daughID →
      findRowAux daughID l k = (k : ℤ) + (i : ℤ)
  | [], _, i, _, hget => by simp at hget
  | x :: xs, k, i, hnd, hget => by
    by_cases hx : x = daughID
    · subst hx
      have hxnotin : x ∉ xs := (List.nodup_cons.mp hnd).1
      cases i with
      | zero => rw [findRowAux, if_pos rfl]; simp
      | succ i =>
        exfalso
        have hmem : xs.get? i = some x := by simpa using hget
        exact hxnotin (List.get?_mem hmem)
    · cases i with
      | zero =>
        exfalso
        have hxd : x = daughID := by simpa using hget
        exact hx hxd
      | succ i =>
        rw [findRowAux, if_neg hx]
        have hrec := findRowAux_get? daughID xs (k + 1) i (List.nodup_cons.mp hnd).2
          (by simpa using hget)
        rw [hrec]
        omega

/-- An id absent from tmpIDtrack resolves to -1. -/
theorem getRowDaughters_not_mem (daughID : ℤ) (vecID : List ℤ) (h : daughID ∉ vecID) :
    getRowDaughters daughID vecID = -1 :=
  findRowAux_of_not_mem daughID vecID 0 h

/-- An id stored at position i of a duplicate-free tmpIDtrack resolves to
exactly i. -/
theorem getRowDaughters_get? (daughID : ℤ) (vecID : List ℤ) (i : ℕ) (hnd : vecID.Nodup)
    (hget : vecID.get? i = some daughID) : getRowDaughters daughID vecID = (i : ℤ) := by
  have h := findRowAux_get? daughID vecID 0 i hnd hget
  simpa using h

/-- C10: the kaon PID gate is not total: at momentum exactly 0.4 neither the
below-threshold nor the above-threshold branch of IsKaonNSigma applies and it
returns false, and with the ConfNsigmaTPCTOFKaon switch disabled it returns
false on every input. -/
theorem kaon_pid_gate_partiality (cfg : Config) (mom nsigmaTPCK nsigmaTOFK : ℚ) :
    IsKaonNSigma cfg (0.4 : ℚ) nsigmaTPCK nsigmaTOFK = false ∧
    IsKaonNSigma { cfg with ConfNsigmaTPCTOFKaon := false } mom nsigmaTPCK nsigmaTOFK
      = false := by
  constructor
  · unfold IsKaonNSigma
    simp [lt_irrefl]
  · unfold IsKaonNSigma
    simp

/-- C3 (code bug): the conditions-database lookup happens once per process,
not once per new run: processing run 1 at timestamp 10 fetches the 30 kG GRP
object and stores 3 T, but the following event of run 2 at timestamp 20 reuses
the function-static GRP cache — mMagField stays 3 T and the 20 kG object the
CCDB holds for timestamp 20 (which a fresh lookup would return, giving 2 T) is
never fetched; a lookup that returns nothing is fatal. -/
theorem magfield_fetched_once_per_process :
    processProd defaultConfig envTwoRuns stFresh colRun1 [] [] =
      some { outputCollision := [], outputParts := [], mRunNumber := 1, mMagField := 3,
             grpo := some ⟨30⟩ } ∧
    processProd defaultConfig envTwoRuns
        { outputCollision := [], outputParts := [], mRunNumber := 1, mMagField := 3,
          grpo := some ⟨30⟩ } colRun2 [] [] =
      some { outputCollision := [], outputParts := [], mRunNumber := 2, mMagField := 3,
             grpo := some ⟨30⟩ } ∧
    getMagneticFieldTesla fetchTwoRuns none colRun2.timestamp = some (⟨20⟩, 2) ∧
    (2 : ℚ) ≠ 3 ∧
    getMagneticFieldTesla (fun _ => none) none 10 = none := by
  refine ⟨?_, ?_, ?_, ?_, ?_⟩ <;>
    norm_num [processProd, updateMagField, getMagneticFieldTesla, envTwoRuns, fetchTwoRuns,
      constEnv, stFresh, colRun1, colRun2, defaultConfig]

/-- C2: with the TPC+TOF kaon switch enabled, a Phi leg passes IsKaonNSigma
exactly when its TPC n-sigma is below ConfNsigmaTPCKaon in absolute value for
momentum below 0.4, and exactly when Hypot of the TOF and TPC n-sigmas is
below ConfNsigmaCombinedKaon for momentum above 0.4; a pair with a failing leg
contributes no rows, whatever the invariant-mass window and pair kinematics. -/
theorem kaon_pid_gate_spec (cfg : Config) (env : Env) (colId : ℤ) (tmpIDtrack : List ℤ)
    (base : ℕ) (p1 p2 : Track) (hsw : cfg.ConfNsigmaTPCTOFKaon = true) :
    (p1.p < 0.4 →
      (IsKaonNSigma cfg p1.p p1.tpcNSigmaKa p1.tofNSigmaKa = true ↔
        |p1.tpcNSigmaKa| < cfg.ConfNsigmaTPCKaon)) ∧
    (p1.p > 0.4 →
      (IsKaonNSigma cfg p1.p p1.tpcNSigmaKa p1.tofNSigmaKa = true ↔
        Real.sqrt ((p1.tofNSigmaKa : ℝ) ^ 2 + (p1.tpcNSigmaKa : ℝ) ^ 2) <
          (cfg.ConfNsigmaCombinedKaon : ℝ))) ∧
    ((IsKaonNSigma cfg p1.p p1.tpcNSigmaKa p1.tofNSigmaKa = false ∨
      IsKaonNSigma cfg p2.p p2.tpcNSigmaKa p2.tofNSigmaKa = false) →
      phiPairRows cfg env colId tmpIDtrack base p1 p2 = []) := by
  refine ⟨?_, ?_, ?_⟩
  · intro hlt
    unfold IsKaonNSigma
    rw [hsw]
    simp [hlt]
  · intro hgt
    have hnlt : ¬ p1.p < 0.4 := lt_asymm hgt
    unfold IsKaonNSigma
    rw [hsw]
    simp only [if_true, if_neg hnlt, if_pos hgt]
    exact hypotLt_iff _ _ _
  · intro hfail
    have hpass : phiPairPass cfg p1 p2 = false := by
      unfold phiPairPass
      rcases hfail with h | h <;> simp [h]
    simp [phiPairRows, hpass]

/-- C2 witness at the default configuration and a concrete leg pair. -/
theorem kaon_pid_gate_spec_witness :
    defaultConfig.ConfNsigmaTPCTOFKaon = true ∧
    ((sampleTrack.p < 0.4 →
      (IsKaonNSigma defaultConfig sampleTrack.p sampleTrack.tpcNSigmaKa
          sampleTrack.tofNSigmaKa = true ↔
        |sampleTrack.tpcNSigmaKa| < defaultConfig.ConfNsigmaTPCKaon)) ∧
    (sampleTrack.p > 0.4 →
      (IsKaonNSigma defaultConfig sampleTrack.p sampleTrack.tpcNSigmaKa
          sampleTrack.tofNSigmaKa = true ↔
        Real.sqrt ((sampleTrack.tofNSigmaKa : ℝ) ^ 2 + (sampleTrack.tpcNSigmaKa : ℝ) ^ 2) <
          (defaultConfig.ConfNsigmaCombinedKaon : ℝ))) ∧
    ((IsKaonNSigma defaultConfig sampleTrack.p sampleTrack.tpcNSigmaKa
        sampleTrack.tofNSigmaKa = false ∨
      IsKaonNSigma defaultConfig sampleTrack2.p sampleTrack2.tpcNSigmaKa
        sampleTrack2.tofNSigmaKa = false) →
      phiPairRows defaultConfig constEnv 0 [] 0 sampleTrack sampleTrack2 = [])) :=
  ⟨rfl, kaon_pid_gate_spec defaultConfig constEnv 0 [] 0 sampleTrack sampleTrack2 rfl⟩

/-- C4 counterexample: a daughter absent from the event's daughter-index map
yields child-index -1 (the not-found value of getRowDaughters), not the claimed
sentinel 0: with tmpIDtrack = [5] and a V0 whose positive daughter id is 7, the
emitted positive child row carries child index -1. -/
theorem missing_daughter_child_index_not_zero :
    (7 : ℤ) ∉ [(5 : ℤ)] ∧
    getRowDaughters 7 [5] = -1 ∧
    ((v0CandRows constEnv 0 [5] 0 { sampleV0 with posTrackId := 7 }).getD 0
        default).childIDs.1 = -1 ∧
    ((v0CandRows constEnv 0 [5] 0 { sampleV0 with posTrackId := 7 }).getD 0
        default).childIDs.1 ≠ 0 := by
  refine ⟨?_, ?_, ?_, ?_⟩ <;> decide

/-- C4 (amended): a daughter excluded by the minimal track filter (absent from
tmpIDtrack) resolves to the sentinel -1, never a stale row reference; a
daughter stored at position i of the duplicate-free map resolves to exactly i;
and the emitted child rows carry precisely these resolved indices. -/
theorem daughter_index_resolution (tmpIDtrack : List ℤ) (daughID : ℤ) (i : ℕ)
    (colId : ℤ) (base : ℕ) (cc : V0CutContainer) (v0 : V0Cand)
    (hnd : tmpIDtrack.Nodup) :
    (daughID ∉ tmpIDtrack → getRowDaughters daughID tmpIDtrack = -1) ∧
    (tmpIDtrack.get? i = some daughID → getRowDaughters daughID tmpIDtrack = (i : ℤ)) ∧
    ((v0Triple colId tmpIDtrack base cc v0).getD 0 default).childIDs =
      (getRowDaughters v0.posTrackId tmpIDtrack, 0) ∧
    ((v0Triple colId tmpIDtrack base cc v0).getD 1 default).childIDs =
      (0, getRowDaughters v0.negTrackId tmpIDtrack) :=
  ⟨getRowDaughters_not_mem daughID tmpIDtrack,
   fun h => getRowDaughters_get? daughID tmpIDtrack i hnd h, rfl, rfl⟩

/-- C4 witness on the concrete map [5, 9]. -/
theorem daughter_index_resolution_witness :
    ([5, 9] : List ℤ).Nodup ∧
    (((9 : ℤ) ∉ ([5, 9] : List ℤ) → getRowDaughters 9 [5, 9] = -1) ∧
     (([5, 9] : List ℤ).get? 1 = some 9 → getRowDaughters 9 [5, 9] = ((1 : ℕ) : ℤ)) ∧
     ((v0Triple 0 [5, 9] 0 ⟨1, 1, 1, 1, 1⟩ sampleV0).getD 0 default).childIDs =
       (getRowDaughters sampleV0.posTrackId [5, 9], 0) ∧
     ((v0Triple 0 [5, 9] 0 ⟨1, 1, 1, 1, 1⟩ sampleV0).getD 1 default).childIDs =
       (0, getRowDaughters sampleV0.negTrackId [5, 9])) :=
  ⟨by decide, daughter_index_resolution [5, 9] 9 1 0 0 ⟨1, 1, 1, 1, 1⟩ sampleV0 (by decide)⟩

/-- C1 counterexample: a Phi pair passing the kinematic, PID and mass gates is
stored even though its own and both daughters' selection bitmaps are all zero —
the storage test in the Phi branch is the constant true, so a whole triple is
emitted with every bitmap zero. -/
theorem phi_triple_stored_with_zero_bitmaps :
    envZeroBits.phiCutContainer sampleTrack sampleTrack2 = ⟨0, 0, 0, 0, 0⟩ ∧
    Option.map (fun s => s.outputParts.map fun r => (r.partType, r.cut, r.pid))
        (processProd cfgPhiOnly envZeroBits stEmpty sampleCol [sampleTrack, sampleTrack2] []) =
      some [(ParticleType.kPhiChild, 0, 0), (ParticleType.kPhiChild, 0, 0),
            (ParticleType.kPhi, 0, 0)] := by
  constructor
  · rfl
  · norm_num [processProd, updateMagField, getMagneticFieldTesla, trackLoop, v0Loop, phiLoop,
      strictlyUpperPairs, phiPairRows, phiPairPass, IsKaonNSigma, hypotLt, phiPosChildRow,
      phiNegChildRow, phiParentRow, getRowDaughters, findRowAux, cfgPhiOnly, envZeroBits,
      constEnv, stEmpty, sampleCol, sampleTrack, sampleTrack2, defaultConfig,
      acceptedCollisionRow]

/-- C1 (amended): the strictly-positive-bitmaps storage test holds for V0
candidates — a V0 contributes rows iff it passes the minimal selection and the
candidate and both daughters have strictly positive selection bitmaps — but
not for Phi candidates: a pair passing the kinematic, PID and mass gates is
always stored as a triple, regardless of its cut container. -/
theorem composite_storage_acceptance (cfg : Config) (env : Env) (colId : ℤ)
    (tmpIDtrack : List ℤ) (base : ℕ) (v0 : V0Cand) (p1 p2 : Track)
    (hpass : phiPairPass cfg p1 p2 = true)
    (hmassLo : ¬ (env.lorentzSum p1 p2).m < cfg.ConfInvMassLowLimitPhi)
    (hmassHi : ¬ (env.lorentzSum p1 p2).m > cfg.ConfInvMassUpLimitPhi) :
    (v0CandRows env colId tmpIDtrack base v0 ≠ [] ↔
      (env.v0IsSelectedMinimal v0 = true ∧ 0 < (env.v0CutContainer v0).v0 ∧
       0 < (env.v0CutContainer v0).posCuts ∧ 0 < (env.v0CutContainer v0).negCuts)) ∧
    (phiPairRows cfg env colId tmpIDtrack base p1 p2).length = 3 := by
  constructor
  · unfold v0CandRows
    by_cases hmin : env.v0IsSelectedMinimal v0
    · simp only [hmin, if_true]
      by_cases hbits : 0 < (env.v0CutContainer v0).v0 ∧ 0 < (env.v0CutContainer v0).posCuts ∧
          0 < (env.v0CutContainer v0).negCuts
      · simp [hbits, v0Triple]
      · simp [hbits]
    · simp [hmin]
  · unfold phiPairRows
    simp [hpass, hmassLo, hmassHi]

/-- C1 witness at the default configuration, the constant-verdict environment
and a concrete pair. -/
theorem composite_storage_acceptance_witness :
    phiPairPass defaultConfig sampleTrack sampleTrack2 = true ∧
    ¬ (constEnv.lorentzSum sampleTrack sampleTrack2).m <
        defaultConfig.ConfInvMassLowLimitPhi ∧
    ¬ (constEnv.lorentzSum sampleTrack sampleTrack2).m >
        defaultConfig.ConfInvMassUpLimitPhi ∧
    ((v0CandRows constEnv 0 [] 0 sampleV0 ≠ [] ↔
      (constEnv.v0IsSelectedMinimal sampleV0 = true ∧
       0 < (constEnv.v0CutContainer sampleV0).v0 ∧
       0 < (constEnv.v0CutContainer sampleV0).posCuts ∧
       0 < (constEnv.v0CutContainer sampleV0).negCuts)) ∧
     (phiPairRows defaultConfig constEnv 0 [] 0 sampleTrack sampleTrack2).length = 3) :=
  ⟨by norm_num [phiPairPass, IsKaonNSigma, hypotLt, defaultConfig, sampleTrack, sampleTrack2],
   by norm_num [constEnv, defaultConfig], by norm_num [constEnv, defaultConfig],
   composite_storage_acceptance defaultConfig constEnv 0 [] 0 sampleV0 sampleTrack sampleTrack2
     (by norm_num [phiPairPass, IsKaonNSigma, hypotLt, defaultConfig, sampleTrack, sampleTrack2])
     (by norm_num [constEnv, defaultConfig]) (by norm_num [constEnv, defaultConfig])⟩

/-- Indexing past an appended prefix lands in the suffix. -/
theorem getD_append_length {α : Type} [Inhabited α] (a : α) (l₁ l₂ : List α) (k : ℕ) :
    (l₁ ++ l₂).getD (l₁.length + k) a = l₂.getD k a := by
  rw [List.getD_eq_getElem?_getD, List.getD_eq_getElem?_getD,
    List.getElem?_append_right (Nat.le_add_right _ _), Nat.add_sub_cancel_left]

/-- The track loop appends exactly the rows and global indices of the tracks
surviving the minimal filter, in input iteration order. -/
theorem trackLoop_eq (env : Env) (colId : ℤ) :
    ∀ (tracks : List Track) (ps : List ParticleRow) (ids : List ℤ),
      trackLoop env colId (ps, ids) tracks =
        (ps ++ (tracks.filter env.isSelectedMinimalTrack).map (trackRow colId),
         ids ++ (tracks.filter env.isSelectedMinimalTrack).map Track.globalIndex)
  | [], ps, ids => by simp [trackLoop]
  | t :: ts, ps, ids => by
    by_cases h : env.isSelectedMinimalTrack t
    · have hrec := trackLoop_eq env colId ts (ps ++ [trackRow colId t]) (ids ++ [t.globalIndex])
      simp only [trackLoop, List.foldl_cons] at hrec ⊢
      rw [if_pos h, hrec]
      simp [List.filter_cons, h, List.append_assoc]
    · have hrec := trackLoop_eq env colId ts ps ids
      simp only [trackLoop, List.foldl_cons] at hrec ⊢
      rw [if_neg h, hrec]
      simp [List.filter_cons, h]

/-- The V0 loop appends exactly the flat V0 row list, candidate by candidate
in input order with running base offsets. -/
theorem v0Loop_eq (env : Env) (colId : ℤ) (tmp : List ℤ) :
    ∀ (fullV0s : List V0Cand) (parts : List ParticleRow),
      v0Loop env colId tmp parts fullV0s =
        parts ++ v0EmitSpec env colId tmp parts.length fullV0s
  | [], parts => by simp [v0Loop, v0EmitSpec]
  | v0 :: rest, parts => by
    have hrec := v0Loop_eq env colId tmp rest (parts ++ v0CandRows env colId tmp parts.length v0)
    simp only [v0Loop, List.foldl_cons] at hrec ⊢
    rw [hrec, v0EmitSpec]
    simp [List.length_append, List.append_assoc]

/-- The Phi fold over an explicit pair list appends exactly the flat Phi row
list, pair by pair in iteration order with running base offsets. -/
theorem phiFold_eq (cfg : Config) (env : Env) (colId : ℤ) (tmp : List ℤ) :
    ∀ (qs : List (Track × Track)) (parts : List ParticleRow),
      qs.foldl (fun ps q => ps ++ phiPairRows cfg env colId tmp ps.length q.1 q.2) parts =
        parts ++ phiEmitSpec cfg env colId tmp parts.length qs
  | [], parts => by simp [phiEmitSpec]
  | q :: rest, parts => by
    have hrec := phiFold_eq cfg env colId tmp rest
      (parts ++ phiPairRows cfg env colId tmp parts.length q.1 q.2)
    simp only [List.foldl_cons] at hrec ⊢
    rw [hrec, phiEmitSpec]
    simp [List.length_append, List.append_assoc]

/-- The Phi loop is the Phi fold over the strictly-upper pair enumeration. -/
theorem phiLoop_eq (cfg : Config) (env : Env) (colId : ℤ) (tmp : List ℤ)
    (parts : List ParticleRow) (tracks : List Track) :
    phiLoop cfg env colId tmp parts tracks =
      parts ++ phiEmitSpec cfg env colId tmp parts.length (strictlyUpperPairs tracks) :=
  phiFold_eq cfg env colId tmp (strictlyUpperPairs tracks) parts

/-- The magnetic-field update never touches the output tables. -/
theorem updateMagField_tables (env : Env) (st : ProducerState) (col : Collision)
    (st1 : ProducerState) (h : updateMagField env st col = some st1) :
    st1.outputCollision = st.outputCollision ∧ st1.outputParts = st.outputParts := by
  unfold updateMagField at h
  by_cases hrun : st.mRunNumber ≠ col.runNumber
  · rw [if_pos hrun] at h
    cases hg : getMagneticFieldTesla env.fetchGRP st.grpo col.timestamp with
    | none => rw [hg] at h; cases h
    | some gb =>
      rw [hg] at h
      cases h
      exact ⟨rfl, rfl⟩
  · rw [if_neg hrun] at h
    cases h
    exact ⟨rfl, rfl⟩

/-- Decomposition of processProd on an accepted event: one collision row is
appended, and the particle table grows by exactly the deterministic
eventPartsSpec list. -/
theorem processProd_accepted (cfg : Config) (env : Env) (st : ProducerState) (col : Collision)
    (tracks : List Track) (fullV0s : List V0Cand) (st1 : ProducerState)
    (hmf : updateMagField env st col = some st1) (hsel : env.isSelected = true) :
    processProd cfg env st col tracks fullV0s =
      some { outputCollision := st1.outputCollision ++ [acceptedCollisionRow cfg env st1 col],
             outputParts := st1.outputParts ++
               eventPartsSpec cfg env (st1.outputCollision.length : ℤ)
                 st1.outputParts.length tracks fullV0s,
             mRunNumber := st1.mRunNumber, mMagField := st1.mMagField, grpo := st1.grpo } := by
  unfold processProd
  rw [hmf]
  simp only [hsel, Bool.not_true, Bool.false_eq_true, if_false]
  have hcol : ((st1.outputCollision ++ [acceptedCollisionRow cfg env st1 col]).length : ℤ) - 1 =
      (st1.outputCollision.length : ℤ) := by
    simp
  rw [hcol, trackLoop_eq]
  by_cases hv : cfg.ConfStoreV0 <;> by_cases hp : cfg.ConfStorePhi <;>
    simp only [hv, hp, if_true, if_false, v0Loop_eq, phiLoop_eq, eventPartsSpec,
      List.length_append, List.length_map, List.append_assoc] <;>
    simp [Nat.add_assoc]

/-- Decomposition of processProd on a rejected event: with ConfIsTrigger one
collision row (z-vertex, multFV0M, sphericity, magnetic field) and no particle
rows; without it no rows at all. -/
theorem processProd_rejected (cfg : Config) (env : Env) (st : ProducerState) (col : Collision)
    (tracks : List Track) (fullV0s : List V0Cand) (st1 : ProducerState)
    (hmf : updateMagField env st col = some st1) (hsel : env.isSelected = false) :
    processProd cfg env st col tracks fullV0s =
      some (if cfg.ConfIsTrigger then
        { st1 with outputCollision := st1.outputCollision ++ [rejectedCollisionRow env st1 col] }
      else st1) := by
  unfold processProd
  rw [hmf]
  by_cases ht : cfg.ConfIsTrigger <;> simp [hsel, ht]

/-- Every row of a V0 candidate's contribution is a V0 child or a V0 parent. -/
theorem mem_v0CandRows_partType (env : Env) (colId : ℤ) (tmp : List ℤ) (base : ℕ)
    (v0 : V0Cand) (row : ParticleRow) (h : row ∈ v0CandRows env colId tmp base v0) :
    row.partType = ParticleType.kV0Child ∨ row.partType = ParticleType.kV0 := by
  simp only [v0CandRows] at h
  split at h
  · split at h
    · simp only [v0Triple, List.mem_cons, List.not_mem_nil, or_false] at h
      rcases h with rfl | rfl | rfl
      · left; rfl
      · left; rfl
      · right; rfl
    · cases h
  · cases h

/-- Every row of a Phi pair's contribution is a Phi child or a Phi parent. -/
theorem mem_phiPairRows_partType (cfg : Config) (env : Env) (colId : ℤ) (tmp : List ℤ)
    (base : ℕ) (p1 p2 : Track) (row : ParticleRow)
    (h : row ∈ phiPairRows cfg env colId tmp base p1 p2) :
    row.partType = ParticleType.kPhiChild ∨ row.partType = ParticleType.kPhi := by
  simp only [phiPairRows] at h
  split at h
  · split at h
    · cases h
    · simp only [List.mem_cons, List.not_mem_nil, or_false] at h
      rcases h with rfl | rfl | rfl
      · left; rfl
      · left; rfl
      · right; rfl
  · cases h

/-- Every row of the V0 section is a V0 child or a V0 parent. -/
theorem mem_v0EmitSpec_partType (env : Env) (colId : ℤ) (tmp : List ℤ) :
    ∀ (v0s : List V0Cand) (base : ℕ) (row : ParticleRow),
      row ∈ v0EmitSpec env colId tmp base v0s →
      row.partType = ParticleType.kV0Child ∨ row.partType = ParticleType.kV0
  | [], _, row, h => by simp [v0EmitSpec] at h
  | v0 :: rest, base, row, h => by
    rw [v0EmitSpec] at h
    rcases List.mem_append.mp h with h | h
    · exact mem_v0CandRows_partType env colId tmp base v0 row h
    · exact mem_v0EmitSpec_partType env colId tmp rest _ row h

/-- Every row of the Phi section is a Phi child or a Phi parent. -/
theorem mem_phiEmitSpec_partType (cfg : Config) (env : Env) (colId : ℤ) (tmp : List ℤ) :
    ∀ (qs : List (Track × Track)) (base : ℕ) (row : ParticleRow),
      row ∈ phiEmitSpec cfg env colId tmp base qs →
      row.partType = ParticleType.kPhiChild ∨ row.partType = ParticleType.kPhi
  | [], _, row, h => by simp [phiEmitSpec] at h
  | q :: rest, base, row, h => by
    rw [phiEmitSpec] at h
    rcases List.mem_append.mp h with h | h
    · exact mem_phiPairRows_partType cfg env colId tmp base q.1 q.2 row h
    · exact mem_phiEmitSpec_partType cfg env colId tmp rest _ row h

/-- C6: on an accepted event the emission order is deterministic and fixed:
the event record first (one appended collision row), then the particle table
grows by exactly eventPartsSpec — accepted tracks in input iteration order,
then V0 triples in input V0 order, then Phi-pair triples in strictly-increasing
pair-index order, each triple listing both child rows before the parent row
that references them. -/
theorem emission_order_deterministic (cfg : Config) (env : Env) (st : ProducerState)
    (col : Collision) (tracks : List Track) (fullV0s : List V0Cand) (st1 : ProducerState)
    (hmf : updateMagField env st col = some st1) (hsel : env.isSelected = true) :
    processProd cfg env st col tracks fullV0s =
      some { outputCollision := st1.outputCollision ++ [acceptedCollisionRow cfg env st1 col],
             outputParts := st1.outputParts ++
               eventPartsSpec cfg env (st1.outputCollision.length : ℤ)
                 st1.outputParts.length tracks fullV0s,
             mRunNumber := st1.mRunNumber, mMagField := st1.mMagField, grpo := st1.grpo } :=
  processProd_accepted cfg env st col tracks fullV0s st1 hmf hsel

/-- C6 witness on a concrete two-track, one-V0 event. -/
theorem emission_order_deterministic_witness :
    updateMagField constEnv stEmpty sampleCol = some stEmpty ∧
    constEnv.isSelected = true ∧
    processProd defaultConfig constEnv stEmpty sampleCol [sampleTrack, sampleTrack2]
        [sampleV0] =
      some { outputCollision := stEmpty.outputCollision ++
               [acceptedCollisionRow defaultConfig constEnv stEmpty sampleCol],
             outputParts := stEmpty.outputParts ++
               eventPartsSpec defaultConfig constEnv (stEmpty.outputCollision.length : ℤ)
                 stEmpty.outputParts.length [sampleTrack, sampleTrack2] [sampleV0],
             mRunNumber := stEmpty.mRunNumber, mMagField := stEmpty.mMagField,
             grpo := stEmpty.grpo } :=
  ⟨by rfl, rfl,
   emission_order_deterministic defaultConfig constEnv stEmpty sampleCol
     [sampleTrack, sampleTrack2] [sampleV0] stEmpty (by rfl) rfl⟩

/-- C5: an accepted V0 contributes exactly 3 rows (2 children then 1 parent);
the parent row's child-index fields are the table positions of the two
just-emitted child rows, and the rows found at those positions are V0 children
whose pt/eta/phi match the daughter tracks' kinematics (given that the V0
record's daughter kinematics agree with its daughter tracks, which on real
data holds up to the float tolerance the spec grants). -/
theorem v0_triple_emission (env : Env) (colId : ℤ) (tmp : List ℤ)
    (parts : List ParticleRow) (v0 : V0Cand)
    (hmin : env.v0IsSelectedMinimal v0 = true)
    (hbts : 0 < (env.v0CutContainer v0).v0 ∧ 0 < (env.v0CutContainer v0).posCuts ∧
      0 < (env.v0CutContainer v0).negCuts)
    (hpos : v0.positivept = v0.posTrack.pt ∧ v0.positiveeta = v0.posTrack.eta ∧
      v0.positivephi = v0.posTrack.phi)
    (hneg : v0.negativept = v0.negTrack.pt ∧ v0.negativeeta = v0.negTrack.eta ∧
      v0.negativephi = v0.negTrack.phi) :
    (v0CandRows env colId tmp parts.length v0).length = 3 ∧
    ((parts ++ v0CandRows env colId tmp parts.length v0).getD (parts.length + 2)
        default).partType = ParticleType.kV0 ∧
    ((parts ++ v0CandRows env colId tmp parts.length v0).getD (parts.length + 2)
        default).childIDs = ((parts.length : ℤ), (parts.length : ℤ) + 1) ∧
    ((parts ++ v0CandRows env colId tmp parts.length v0).getD parts.length
        default).partType = ParticleType.kV0Child ∧
    ((parts ++ v0CandRows env colId tmp parts.length v0).getD parts.length
        default).pt = v0.posTrack.pt ∧
    ((parts ++ v0CandRows env colId tmp parts.length v0).getD parts.length
        default).eta = v0.posTrack.eta ∧
    ((parts ++ v0CandRows env colId tmp parts.length v0).getD parts.length
        default).phi = v0.posTrack.phi ∧
    ((parts ++ v0CandRows env colId tmp parts.length v0).getD (parts.length + 1)
        default).partType = ParticleType.kV0Child ∧
    ((parts ++ v0CandRows env colId tmp parts.length v0).getD (parts.length + 1)
        default).pt = v0.negTrack.pt ∧
    ((parts ++ v0CandRows env colId tmp parts.length v0).getD (parts.length + 1)
        default).eta = v0.negTrack.eta ∧
    ((parts ++ v0CandRows env colId tmp parts.length v0).getD (parts.length + 1)
        default).phi = v0.negTrack.phi := by
  have hrows : v0CandRows env colId tmp parts.length v0 =
      v0Triple colId tmp parts.length (env.v0CutContainer v0) v0 := by
    simp only [v0CandRows]
    rw [if_pos hmin, if_pos hbts]
  have h0 : (parts ++ v0CandRows env colId tmp parts.length v0).getD parts.length default =
      (v0CandRows env colId tmp parts.length v0).getD 0 default := by
    have := getD_append_length default parts (v0CandRows env colId tmp parts.length v0) 0
    simpa using this
  have h1 := getD_append_length default parts (v0CandRows env colId tmp parts.length v0) 1
  have h2 := getD_append_length default parts (v0CandRows env colId tmp parts.length v0) 2
  refine ⟨?_, ?_, ?_, ?_, ?_, ?_, ?_, ?_, ?_, ?_, ?_⟩
  · rw [hrows]; rfl
  · rw [h2, hrows]; rfl
  · rw [h2, hrows]; rfl
  · rw [h0, hrows]; rfl
  · rw [h0, hrows]; exact hpos.1
  · rw [h0, hrows]; exact hpos.2.1
  · rw [h0, hrows]; exact hpos.2.2
  · rw [h1, hrows]; rfl
  · rw [h1, hrows]; exact hneg.1
  · rw [h1, hrows]; exact hneg.2.1
  · rw [h1, hrows]; exact hneg.2.2

/-- C5 witness on a concrete V0 appended to an empty table. -/
theorem v0_triple_emission_witness :
    constEnv.v0IsSelectedMinimal sampleV0 = true ∧
    (0 < (constEnv.v0CutContainer sampleV0).v0 ∧
     0 < (constEnv.v0CutContainer sampleV0).posCuts ∧
     0 < (constEnv.v0CutContainer sampleV0).negCuts) ∧
    ((v0CandRows constEnv 0 [1, 2] ([] : List ParticleRow).length sampleV0).length = 3 ∧
     ((([] : List ParticleRow) ++
         v0CandRows constEnv 0 [1, 2] ([] : List ParticleRow).length sampleV0).getD
         (([] : List ParticleRow).length + 2) default).partType = ParticleType.kV0 ∧
     ((([] : List ParticleRow) ++
         v0CandRows constEnv 0 [1, 2] ([] : List ParticleRow).length sampleV0).getD
         (([] : List ParticleRow).length + 2) default).childIDs =
       ((([] : List ParticleRow).length : ℤ), (([] : List ParticleRow).length : ℤ) + 1) ∧
     ((([] : List ParticleRow) ++
         v0CandRows constEnv 0 [1, 2] ([] : List ParticleRow).length sampleV0).getD
         ([] : List ParticleRow).length default).partType = ParticleType.kV0Child ∧
     ((([] : List ParticleRow) ++
         v0CandRows constEnv 0 [1, 2] ([] : List ParticleRow).length sampleV0).getD
         ([] : List ParticleRow).length default).pt = sampleV0.posTrack.pt ∧
     ((([] : List ParticleRow) ++
         v0CandRows constEnv 0 [1, 2] ([] : List ParticleRow).length sampleV0).getD
         ([] : List ParticleRow).length default).eta = sampleV0.posTrack.eta ∧
     ((([] : List ParticleRow) ++
         v0CandRows constEnv 0 [1, 2] ([] : List ParticleRow).length sampleV0).getD
         ([] : List ParticleRow).length default).phi = sampleV0.posTrack.phi ∧
     ((([] : List ParticleRow) ++
         v0CandRows constEnv 0 [1, 2] ([] : List ParticleRow).length sampleV0).getD
         (([] : List ParticleRow).length + 1) default).partType = ParticleType.kV0Child ∧
     ((([] : List ParticleRow) ++
         v0CandRows constEnv 0 [1, 2] ([] : List ParticleRow).length sampleV0).getD
         (([] : List ParticleRow).length + 1) default).pt = sampleV0.negTrack.pt ∧
     ((([] : List ParticleRow) ++
         v0CandRows constEnv 0 [1, 2] ([] : List ParticleRow).length sampleV0).getD
         (([] : List ParticleRow).length + 1) default).eta = sampleV0.negTrack.eta ∧
     ((([] : List ParticleRow) ++
         v0CandRows constEnv 0 [1, 2] ([] : List ParticleRow).length sampleV0).getD
         (([] : List ParticleRow).length + 1) default).phi = sampleV0.negTrack.phi) :=
  ⟨rfl, ⟨Nat.one_pos, Nat.one_pos, Nat.one_pos⟩,
   v0_triple_emission constEnv 0 [1, 2] ([] : List ParticleRow) sampleV0 rfl
     ⟨Nat.one_pos, Nat.one_pos, Nat.one_pos⟩ ⟨rfl, rfl, rfl⟩ ⟨rfl, rfl, rfl⟩⟩

/-- C8: a rejected event in trigger mode emits exactly one valid collision row
(z-vertex, multFV0M multiplicity, sphericity, magnetic field) and no particle
rows; with trigger mode off it emits nothing at all. -/
theorem rejected_event_rows (cfg : Config) (env : Env) (st : ProducerState) (col : Collision)
    (tracks : List Track) (fullV0s : List V0Cand) (st1 : ProducerState)
    (hmf : updateMagField env st col = some st1) (hsel : env.isSelected = false) :
    st1.outputCollision = st.outputCollision ∧
    st1.outputParts = st.outputParts ∧
    (cfg.ConfIsTrigger = true →
      processProd cfg env st col tracks fullV0s =
        some { st1 with
          outputCollision := st1.outputCollision ++ [rejectedCollisionRow env st1 col] }) ∧
    (cfg.ConfIsTrigger = false →
      processProd cfg env st col tracks fullV0s = some st1) := by
  obtain ⟨h1, h2⟩ := updateMagField_tables env st col st1 hmf
  refine ⟨h1, h2, ?_, ?_⟩ <;> intro ht <;>
    rw [processProd_rejected cfg env st col tracks fullV0s st1 hmf hsel] <;> simp [ht]

/-- C8 witness: a concrete rejected event in trigger mode. -/
theorem rejected_event_rows_witness :
    updateMagField envTwoRuns stEmpty sampleCol = some stEmpty ∧
    envTwoRuns.isSelected = false ∧
    (stEmpty.outputCollision = stEmpty.outputCollision ∧
     stEmpty.outputParts = stEmpty.outputParts ∧
     (cfgTrigger.ConfIsTrigger = true →
       processProd cfgTrigger envTwoRuns stEmpty sampleCol [sampleTrack] [] =
         some { stEmpty with
           outputCollision := stEmpty.outputCollision ++
             [rejectedCollisionRow envTwoRuns stEmpty sampleCol] }) ∧
     (cfgTrigger.ConfIsTrigger = false →
       processProd cfgTrigger envTwoRuns stEmpty sampleCol [sampleTrack] [] = some stEmpty)) :=
  ⟨by rfl, rfl,
   rejected_event_rows cfgTrigger envTwoRuns stEmpty sampleCol [sampleTrack] [] stEmpty
     (by rfl) rfl⟩

/-- C9: every particle row a processProd call adds whose type is kTrack
carries the literal-zero selection and PID bitmaps — no cut container is ever
computed for primary tracks. -/
theorem track_rows_zero_bitmaps (cfg : Config) (env : Env) (st : ProducerState)
    (col : Collision) (tracks : List Track) (fullV0s : List V0Cand) (st2 : ProducerState)
    (row : ParticleRow)
    (h : processProd cfg env st col tracks fullV0s = some st2)
    (hrow : row ∈ st2.outputParts.drop st.outputParts.length)
    (htype : row.partType = ParticleType.kTrack) :
    row.cut = 0 ∧ row.pid = 0 := by
  cases hmf : updateMagField env st col with
  | none =>
    unfold processProd at h
    rw [hmf] at h
    cases h
  | some st1 =>
    obtain ⟨hc1, hp1⟩ := updateMagField_tables env st col st1 hmf
    cases hsel : env.isSelected with
    | false =>
      rw [processProd_rejected cfg env st col tracks fullV0s st1 hmf hsel] at h
      have hst2 : st2.outputParts = st.outputParts := by
        by_cases ht : cfg.ConfIsTrigger
        · rw [if_pos ht] at h
          cases h
          exact hp1
        · rw [if_neg ht] at h
          cases h
          exact hp1
      rw [hst2, List.drop_length] at hrow
      cases hrow
    | true =>
      rw [processProd_accepted cfg env st col tracks fullV0s st1 hmf hsel] at h
      cases h
      dsimp only at hrow
      rw [hp1, List.drop_left] at hrow
      simp only [eventPartsSpec, List.mem_append] at hrow
      rcases hrow with (hrow | hrow) | hrow
      · rcases List.mem_map.mp hrow with ⟨t, _, rfl⟩
        exact ⟨rfl, rfl⟩
      · by_cases hv : cfg.ConfStoreV0
        · rw [if_pos hv] at hrow
          rcases mem_v0EmitSpec_partType env _ _ fullV0s _ row hrow with hty | hty <;>
            rw [htype] at hty <;> cases hty
        · rw [if_neg hv] at hrow
          cases hrow
      · by_cases hph : cfg.ConfStorePhi
        · rw [if_pos hph] at hrow
          rcases mem_phiEmitSpec_partType cfg env _ _ (strictlyUpperPairs tracks) _ row
              hrow with hty | hty <;>
            rw [htype] at hty <;> cases hty
        · rw [if_neg hph] at hrow
          cases hrow

/-- C9 witness: the single track row of a concrete track-only event has zero
bitmaps. -/
theorem track_rows_zero_bitmaps_witness :
    processProd cfgTrackOnly constEnv stEmpty sampleCol [sampleTrack] [] =
      some stTrackOnlyOut ∧
    trackRow 0 sampleTrack ∈ stTrackOnlyOut.outputParts.drop stEmpty.outputParts.length ∧
    (trackRow 0 sampleTrack).partType = ParticleType.kTrack ∧
    ((trackRow 0 sampleTrack).cut = 0 ∧ (trackRow 0 sampleTrack).pid = 0) :=
  ⟨by rfl, by simp [stTrackOnlyOut, stEmpty], rfl,
   track_rows_zero_bitmaps cfgTrackOnly constEnv stEmpty sampleCol [sampleTrack] []
     stTrackOnlyOut (trackRow 0 sampleTrack) (by rfl)
     (by simp [stTrackOnlyOut, stEmpty]) rfl⟩

/-- The strictly-upper pair enumeration has binomial(n, 2) entries. -/
theorem strictlyUpperPairs_length {α : Type} :
    ∀ xs : List α, (strictlyUpperPairs xs).length = xs.length.choose 2
  | [] => by simp [strictlyUpperPairs]
  | x :: xs => by
    rw [strictlyUpperPairs]
    simp [List.length_append, List.length_map, strictlyUpperPairs_length xs,
      Nat.choose_succ_succ, Nat.choose_one_right, Nat.add_comm]

/-- Both legs of an enumerated pair come from the input list. -/
theorem mem_strictlyUpperPairs {α : Type} :
    ∀ (xs : List α) (q : α × α), q ∈ strictlyUpperPairs xs → q.1 ∈ xs ∧ q.2 ∈ xs
  | [], q, h => by simp [strictlyUpperPairs] at h
  | x :: xs, q, h => by
    rw [strictlyUpperPairs] at h
    rcases List.mem_append.mp h with h | h
    · rcases List.mem_map.mp h with ⟨y, hy, rfl⟩
      exact ⟨List.mem_cons_self x xs, List.mem_cons_of_mem x hy⟩
    · have hq := mem_strictlyUpperPairs xs q h
      exact ⟨List.mem_cons_of_mem x hq.1, List.mem_cons_of_mem x hq.2⟩

/-- A pairwise relation on the input list holds between the legs of every
enumerated pair. -/
theorem strictlyUpperPairs_rel {α : Type} (R : α → α → Prop) :
    ∀ xs : List α, xs.Pairwise R → ∀ q ∈ strictlyUpperPairs xs, R q.1 q.2
  | [], _, q, h => by simp [strictlyUpperPairs] at h
  | x :: xs, hp, q, h => by
    rw [strictlyUpperPairs] at h
    rcases List.mem_append.mp h with h | h
    · rcases List.mem_map.mp h with ⟨y, hy, rfl⟩
      exact (List.pairwise_cons.mp hp).1 y hy
    · exact strictlyUpperPairs_rel R xs (List.pairwise_cons.mp hp).2 q h

/-- On a duplicate-free input the pair enumeration is itself duplicate-free. -/
theorem strictlyUpperPairs_nodup {α : Type} :
    ∀ xs : List α, xs.Nodup → (strictlyUpperPairs xs).Nodup
  | [], _ => by simp [strictlyUpperPairs]
  | x :: xs, h => by
    rw [strictlyUpperPairs]
    have h1 : x ∉ xs := (List.nodup_cons.mp h).1
    have h2 : xs.Nodup := (List.nodup_cons.mp h).2
    refine List.Nodup.append ?_ (strictlyUpperPairs_nodup xs h2) ?_
    · exact h2.map fun a b hab => by simpa using congrArg Prod.snd hab
    · intro q hq1 hq2
      rcases List.mem_map.mp hq1 with ⟨y, _, rfl⟩
      exact h1 (mem_strictlyUpperPairs xs _ hq2).1

/-- Positions i < j of the input list yield an enumerated pair. -/
theorem strictlyUpperPairs_get?_mem {α : Type} :
    ∀ (xs : List α) (i j : ℕ) (a b : α), i < j → xs.get? i = some a → xs.get? j = some b →
      (a, b) ∈ strictlyUpperPairs xs
  | [], _, _, _, _, _, ha, _ => by simp at ha
  | x :: xs, i, j, a, b, hij, ha, hb => by
    rw [strictlyUpperPairs]
    cases i with
    | zero =>
      have hax : x = a := by simpa using ha
      cases j with
      | zero => omega
      | succ j =>
        have hbmem : b ∈ xs := List.get?_mem (by simpa using hb)
        subst hax
        exact List.mem_append_left _ (List.mem_map.mpr ⟨b, hbmem, rfl⟩)
    | succ i =>
      cases j with
      | zero => omega
      | succ j =>
        exact List.mem_append_right _
          (strictlyUpperPairs_get?_mem xs i j a b (by omega) (by simpa using ha)
            (by simpa using hb))

/-- C7: the pairwise Phi enumeration over an event with N tracks visits
exactly N·(N-1)/2 unordered pairs; with duplicate-free track global indices
each positional pair (i, j), i < j, is visited exactly once and no visited
pair has equal global indices on its two legs. -/
theorem pair_enumeration (xs : List Track) (i j : ℕ) (a b : Track) (q : Track × Track)
    (h : (xs.map Track.globalIndex).Nodup) :
    (strictlyUpperPairs xs).length = xs.length * (xs.length - 1) / 2 ∧
    (strictlyUpperPairs xs).Nodup ∧
    (i < j → xs.get? i = some a → xs.get? j = some b →
      (a, b) ∈ strictlyUpperPairs xs) ∧
    (q ∈ strictlyUpperPairs xs → q.1.globalIndex ≠ q.2.globalIndex) := by
  have hnd : xs.Nodup := h.of_map Track.globalIndex
  refine ⟨?_, strictlyUpperPairs_nodup xs hnd, ?_, ?_⟩
  · rw [strictlyUpperPairs_length, Nat.choose_two_right]
  · intro hij ha hb
    exact strictlyUpperPairs_get?_mem xs i j a b hij ha hb
  · intro hq
    have hpw : xs.Pairwise fun s t => s.globalIndex ≠ t.globalIndex :=
      List.pairwise_map.mp h
    exact strictlyUpperPairs_rel _ xs hpw q hq

/-- C7 witness on a concrete three-track event. -/
theorem pair_enumeration_witness :
    ([sampleTrack, sampleTrack2, sampleTrack3].map Track.globalIndex).Nodup ∧
    ((strictlyUpperPairs [sampleTrack, sampleTrack2, sampleTrack3]).length =
      [sampleTrack, sampleTrack2, sampleTrack3].length *
        ([sampleTrack, sampleTrack2, sampleTrack3].length - 1) / 2 ∧
     (strictlyUpperPairs [sampleTrack, sampleTrack2, sampleTrack3]).Nodup ∧
     (0 < 1 → [sampleTrack, sampleTrack2, sampleTrack3].get? 0 = some sampleTrack →
      [sampleTrack, sampleTrack2, sampleTrack3].get? 1 = some sampleTrack2 →
      (sampleTrack, sampleTrack2) ∈
        strictlyUpperPairs [sampleTrack, sampleTrack2, sampleTrack3]) ∧
     ((sampleTrack, sampleTrack2) ∈ strictlyUpperPairs
        [sampleTrack, sampleTrack2, sampleTrack3] →
      (sampleTrack, sampleTrack2).1.globalIndex ≠ (sampleTrack, sampleTrack2).2.globalIndex)) :=
  ⟨by decide,
   pair_enumeration [sampleTrack, sampleTrack2, sampleTrack3] 0 1 sampleTrack sampleTrack2
     (sampleTrack, sampleTrack2) (by decide)⟩

end FemtoWorld
